import Mathlib

set_option linter.unusedVariables false
set_option maxRecDepth 8000

/-!
Shallow embedding of the SMS history backend reconciliation core.

The model covers the two bulk synchronization endpoints, the single-message
endpoint, the list-pagination clamp and the delete endpoint:

  - src/routes/sms.js   (content-keyed variant: POST /message, POST /messages)
  - src/routes/auth.js  (id-keyed variant: GET /, POST /bulk, DELETE /:smsId,
                         concatenated after the auth routes in that file)
  - src/middleware/validation.js and the inline validation rule lists
  - src/sql/sms_messages.sql (content-keyed schema with its unique key)
  - the migration scripts (id-keyed schema, unique key (user_id, sms_id))

The relational store is modelled as a list of rows.  A storage call that can
throw is modelled by a per-item oracle giving the error raised by the driver
at that loop position, if any; in addition an INSERT into the content-keyed
table deterministically raises ER_DUP_ENTRY when the schema unique key
(user_id, address(20), body(100), date, type) already has a matching row.
-/

/-- A stored row of the content-keyed sms_messages table
(src/sql/sms_messages.sql). -/
structure Row where
  userId : Nat
  address : String
  body : String
  date : Int
  type : Int
  contactName : Option String
  dateFormatted : Option String
  messageId : Option String
  deriving DecidableEq

/-- A submitted message for the content-keyed routes (src/routes/sms.js).
After express-validator ran, address and body are strings and date and type
are integers; the handler itself re-checks them only for JS truthiness. -/
structure Msg where
  address : String
  body : String
  date : Int
  type : Int
  contactName : Option String
  dateFormatted : Option String
  deriving DecidableEq

/-- Error codes a mysql2 execute call can surface, as discriminated by the
bulk handler in src/routes/sms.js. -/
inductive DbErr where
  | dupEntry
  | dataTooLong
  | badNull
  | other
  deriving DecidableEq

/-- The per-item error message chosen from the error code
(src/routes/sms.js lines 196-203). -/
def errText : DbErr → String
  | DbErr.dupEntry => "Duplicate entry conflict"
  | DbErr.dataTooLong => "Data too long for field"
  | DbErr.badNull => "Required field cannot be null"
  | DbErr.other => "Processing failed"

/-- A per-item error entry of the content-keyed bulk report
(fields message and error, src/routes/sms.js lines 167-170 and 205-209). -/
structure ItemError where
  message : String
  error : String
  deriving DecidableEq

/-- The label put in a per-item error entry:
address or unknown, a dash, the first 50 characters of the body, dots. -/
def errLabel (m : Msg) : String :=
  (if m.address = "" then "unknown" else m.address) ++ " - " ++ m.body.take 50 ++ "..."

/-- The error entry for an item failing the truthiness check of
src/routes/sms.js line 166. -/
def missingFieldsError (m : Msg) : ItemError :=
  ⟨errLabel m, "Missing required fields (address, body, date, type)"⟩

/-- JS truthiness of all four required fields: the check
(not address or not body or not date or not type) fails exactly when all are
truthy; an empty string and the number 0 are falsy. -/
def truthyP (m : Msg) : Prop :=
  m.address ≠ "" ∧ m.body ≠ "" ∧ m.date ≠ 0 ∧ m.type ≠ 0

instance truthyPDec (m : Msg) : Decidable (truthyP m) := by
  unfold truthyP
  exact inferInstance

/-- The composite key string of src/routes/sms.js lines 153 and 174. -/
def smsKey (m : Msg) : String :=
  m.address ++ "|" ++ m.body ++ "|" ++ toString m.date

/-- The existence query of the pre-check loop: a row of this user with the
same address, body and date (src/routes/sms.js lines 147-150). -/
def contentExists (db : List Row) (u : Nat) (m : Msg) : Bool :=
  db.any fun r => decide (r.userId = u ∧ r.address = m.address ∧ r.body = m.body ∧ r.date = m.date)

/-- The guard of the pre-check loop (src/routes/sms.js line 143): items with
a falsy address, body or date are skipped by the pre-check. -/
def preCheckGuard (m : Msg) : Bool :=
  decide (m.address ≠ "" ∧ m.body ≠ "" ∧ m.date ≠ 0)

/-- The set of composite keys found to exist before processing
(src/routes/sms.js lines 139-156), as a list whose membership is the set. -/
def preCheck (db : List Row) (u : Nat) (msgs : List Msg) : List String :=
  (msgs.filter fun m => preCheckGuard m && contentExists db u m).map smsKey

/-- The row built by the content-keyed bulk INSERT
(src/routes/sms.js lines 179-190): message_id is not set. -/
def rowOf (u : Nat) (m : Msg) : Row :=
  ⟨u, m.address, m.body, m.date, m.type, m.contactName, m.dateFormatted, none⟩

/-- Two rows collide on the storage unique key of src/sql/sms_messages.sql:
UNIQUE KEY unique_sms_per_user (user_id, address(20), body(100), date, type);
the column prefixes are modelled by String.take. -/
def sameSchemaKey (a b : Row) : Prop :=
  a.userId = b.userId ∧ a.address.take 20 = b.address.take 20 ∧
    a.body.take 100 = b.body.take 100 ∧ a.date = b.date ∧ a.type = b.type

instance sameSchemaKeyDec (a b : Row) : Decidable (sameSchemaKey a b) := by
  unfold sameSchemaKey
  exact inferInstance

/-- An INSERT into the content-keyed table raises ER_DUP_ENTRY exactly when
a stored row already matches the schema unique key. -/
def schemaConflict (db : List Row) (r : Row) : Bool :=
  db.any fun r2 => decide (sameSchemaKey r2 r)

/-- No two stored rows of the content-keyed table share the schema unique
key: the invariant enforced by UNIQUE KEY unique_sms_per_user. -/
def smsUnique (db : List Row) : Prop :=
  List.Pairwise (fun a b => ¬ sameSchemaKey a b) db

/-- Mutable state of the per-message loop of src/routes/sms.js lines
158-211: the store, insertedCount, updatedCount and the errors array. -/
structure SmsLoopState where
  db : List Row
  inserted : Nat
  updated : Nat
  errors : List ItemError
  deriving DecidableEq

/-- One iteration of the per-message loop (src/routes/sms.js lines 163-211):
falsy required field records an error; a key in the existing set falls into
the empty branch; otherwise the INSERT runs, which can throw the oracle
error e or a deterministic ER_DUP_ENTRY on a schema key conflict. -/
def smsStep (u : Nat) (existing : List String) (e : Option DbErr) (st : SmsLoopState) (m : Msg) :
    SmsLoopState :=
  if ¬ truthyP m then
    { st with errors := st.errors ++ [missingFieldsError m] }
  else if smsKey m ∈ existing then st
  else
    match e with
    | some er => { st with errors := st.errors ++ [⟨errLabel m, errText er⟩] }
    | none =>
      if schemaConflict st.db (rowOf u m) then
        { st with errors := st.errors ++ [⟨errLabel m, errText DbErr.dupEntry⟩] }
      else
        { st with db := st.db ++ [rowOf u m], inserted := st.inserted + 1 }

/-- The per-message loop, processing messages in submission order; the Nat
argument is the loop position fed to the error oracle. -/
def smsProcess (u : Nat) (existing : List String) (oracle : Nat → Option DbErr) :
    Nat → List Msg → SmsLoopState → SmsLoopState
  | _, [], st => st
  | i, m :: rest, st => smsProcess u existing oracle (i + 1) rest (smsStep u existing (oracle i) st m)

/-- The response body and status of POST /api/sms/messages
(src/routes/sms.js lines 213-235).  On the early empty-batch return the
source sends no data object; that path is modelled with zero counters. -/
structure SmsReport where
  statusCode : Nat
  success : Bool
  message : String
  totalMessages : Nat
  insertedMessages : Nat
  updatedMessages : Nat
  processedMessages : Nat
  erroredMessages : Nat
  errors : List ItemError
  deriving DecidableEq

/-- The bulk handler of POST /api/sms/messages (src/routes/sms.js lines
126-245): empty-batch early return, pre-check of existing composite keys,
the per-message loop, then status selection (200, 207 partial, 400 total
failure) and the response counters. -/
def smsBulk (db : List Row) (u : Nat) (msgs : List Msg) (oracle : Nat → Option DbErr) :
    List Row × SmsReport :=
  if msgs.isEmpty then
    (db, ⟨400, false, "Messages array is required and cannot be empty", 0, 0, 0, 0, 0, []⟩)
  else
    let existing := preCheck db u msgs
    let st := smsProcess u existing oracle 0 msgs ⟨db, 0, 0, []⟩
    let totalProcessed := st.inserted + st.updated
    let hasErrors := !st.errors.isEmpty
    let statusCode := if hasErrors then (if 0 < totalProcessed then 207 else 400) else 200
    let success := !hasErrors || decide (0 < totalProcessed)
    let msgText :=
      if hasErrors then
        "Processed " ++ toString totalProcessed ++ "/" ++ toString msgs.length ++
          " messages with " ++ toString st.errors.length ++ " errors"
      else "All SMS messages processed successfully"
    (st.db,
      ⟨statusCode, success, msgText, msgs.length, st.inserted, st.updated, totalProcessed,
        st.errors.length, st.errors⟩)

/-- A field error produced by the validation middleware
(handleValidationErrors, src/routes/sms.js lines 9-19). -/
structure FieldError where
  path : String
  msg : String
  deriving DecidableEq

/-- Errors of one wildcard validation chain (messages.*.field) over the
batch, in item order; the Nat argument is the item index. -/
def wildErrs (field msg : String) (check : Msg → Bool) : Nat → List Msg → List FieldError
  | _, [] => []
  | i, m :: rest =>
    (if check m then [] else [⟨"messages[" ++ toString i ++ "]." ++ field, msg⟩]) ++
      wildErrs field msg check (i + 1) rest

/-- The trim of JS String.prototype.trim, as applied by the address
validation chain: whitespace stripped from both ends (written with
structural recursion so that it evaluates on concrete inputs). -/
def jsTrim (s : String) : String :=
  String.mk ((s.toList.dropWhile Char.isWhitespace).reverse.dropWhile Char.isWhitespace).reverse

/-- multipleSMSValidation (src/routes/sms.js lines 33-42): the messages
array is nonempty; each address trims to nonempty, each body is nonempty,
each date is an integer at least 0, each type is an integer at least 0.
Chains run in listed order; a chain lists its failing items in order. -/
def multipleSMSValidation (msgs : List Msg) : List FieldError :=
  (if msgs.length < 1 then
    [⟨"messages", "Messages must be an array with at least one message"⟩]
  else []) ++
  wildErrs "address" "Each message must have an address"
    (fun m => decide (jsTrim m.address ≠ "")) 0 msgs ++
  wildErrs "body" "Each message must have a body"
    (fun m => decide (m.body ≠ "")) 0 msgs ++
  wildErrs "date" "Each message must have a valid timestamp"
    (fun m => decide (0 ≤ m.date)) 0 msgs ++
  wildErrs "type" "Each message must have a valid type"
    (fun m => decide (0 ≤ m.type)) 0 msgs

/-- The trim sanitizer of the address chain mutates the request body, so
the handler sees the trimmed address. -/
def sanitizeMsg (m : Msg) : Msg :=
  { m with address := jsTrim m.address }

/-- Outcome of the full POST /api/sms/messages endpoint: a 400 validation
failure from the middleware, or the handler response. -/
inductive SmsEndpointResult where
  | validationFailed (errors : List FieldError)
  | handled (r : SmsReport)
  deriving DecidableEq

/-- The full content-keyed bulk endpoint: multipleSMSValidation, then
handleValidationErrors (400 on any validation error), then the handler on
the sanitized batch. -/
def postMessagesEndpoint (db : List Row) (u : Nat) (msgs : List Msg)
    (oracle : Nat → Option DbErr) : List Row × SmsEndpointResult :=
  let ve := multipleSMSValidation msgs
  if ve.isEmpty then
    let p := smsBulk db u (msgs.map sanitizeMsg) oracle
    (p.1, SmsEndpointResult.handled p.2)
  else (db, SmsEndpointResult.validationFailed ve)

/-- A benign oracle: no storage call throws. -/
def noThrow : Nat → Option DbErr := fun _ => none

/-- A stored row of the id-keyed sms_messages table created by the
migration scripts: unique key (user_id, sms_id). -/
structure AuthRow where
  userId : Nat
  smsId : String
  address : String
  body : String
  date : String
  type : Int
  deriving DecidableEq

/-- A submitted item of the id-keyed bulk endpoint (src/routes/auth.js
POST /bulk): destructured with a default of 1 for a missing type. -/
structure AuthItem where
  smsId : String
  address : String
  body : String
  date : String
  type : Option Int
  deriving DecidableEq

/-- A per-item error entry of the id-keyed bulk report
(src/routes/auth.js lines 354-357). -/
structure AuthErr where
  smsId : String
  error : String
  deriving DecidableEq

/-- A row of this user with this sms_id already exists: the condition under
which INSERT IGNORE on unique key (user_id, sms_id) affects zero rows. -/
def idExists (db : List AuthRow) (u : Nat) (sid : String) : Bool :=
  db.any fun r => decide (r.userId = u ∧ r.smsId = sid)

/-- The row built by the id-keyed INSERT IGNORE
(src/routes/auth.js lines 342-345). -/
def authRowOf (u : Nat) (it : AuthItem) : AuthRow :=
  ⟨u, it.smsId, it.address, it.body, it.date, it.type.getD 1⟩

/-- Mutable state of the id-keyed bulk loop (src/routes/auth.js lines
334-359): the store, savedCount, duplicateCount and the errors array. -/
structure AuthLoopState where
  db : List AuthRow
  saved : Nat
  dup : Nat
  errors : List AuthErr
  deriving DecidableEq

/-- One iteration of the id-keyed bulk loop (src/routes/auth.js lines
338-359): a throwing execute records a per-item error; otherwise INSERT
IGNORE either inserts (affectedRows 1, savedCount) or is ignored on an
existing (user_id, sms_id) key (affectedRows 0, duplicateCount). -/
def authStep (u : Nat) (e : Option String) (st : AuthLoopState) (it : AuthItem) : AuthLoopState :=
  match e with
  | some msg => { st with errors := st.errors ++ [⟨it.smsId, msg⟩] }
  | none =>
    if idExists st.db u it.smsId then { st with dup := st.dup + 1 }
    else { st with db := st.db ++ [authRowOf u it], saved := st.saved + 1 }

/-- The id-keyed bulk loop; the Nat argument is the loop position fed to
the error oracle. -/
def authProcess (u : Nat) (oracle : Nat → Option String) :
    Nat → List AuthItem → AuthLoopState → AuthLoopState
  | _, [], st => st
  | i, it :: rest, st => authProcess u oracle (i + 1) rest (authStep u (oracle i) st it)

/-- The response of POST /bulk (src/routes/auth.js lines 363-373):
res.json sends HTTP 200, success is always true, and the listed errors are
capped by errors.slice(0, 10) while error_count counts them all. -/
structure AuthReport where
  statusCode : Nat
  success : Bool
  message : String
  totalProcessed : Nat
  savedCount : Nat
  duplicateCount : Nat
  errorCount : Nat
  errors : List AuthErr
  deriving DecidableEq

/-- The id-keyed bulk handler POST /bulk (src/routes/auth.js lines
324-385): the per-item loop, then the always-success response with counts
and the first 10 errors. -/
def authBulk (db : List AuthRow) (u : Nat) (items : List AuthItem)
    (oracle : Nat → Option String) : List AuthRow × AuthReport :=
  let st := authProcess u oracle 0 items ⟨db, 0, 0, []⟩
  (st.db,
    ⟨200, true, "Bulk SMS save completed", items.length, st.saved, st.dup, st.errors.length,
      st.errors.take 10⟩)

/-- No two stored rows of the id-keyed table share (user_id, sms_id): the
invariant enforced by UNIQUE KEY unique_user_sms. -/
def authUnique (db : List AuthRow) : Prop :=
  List.Pairwise (fun a b => ¬ (a.userId = b.userId ∧ a.smsId = b.smsId)) db

/-- A benign oracle for the id-keyed loop: no storage call throws. -/
def noThrowS : Nat → Option String := fun _ => none

/-- JS n or d for numbers: parseInt yielding NaN is modelled by none, and
0 is falsy, so 0 or d gives d. -/
def jsOrInt (v : Option Int) (d : Int) : Int :=
  match v with
  | none => d
  | some n => if n = 0 then d else n

/-- pageNum of GET / (src/routes/auth.js line 212):
Math.max(1, parseInt(page) or 1). -/
def pageNum (page : Option Int) : Int :=
  max 1 (jsOrInt page 1)

/-- limitNum of GET / (src/routes/auth.js line 213):
Math.max(1, Math.min(1000, parseInt(limit) or 100)). -/
def limitNum (limit : Option Int) : Int :=
  max 1 (min 1000 (jsOrInt limit 100))

/-- The response of DELETE /:smsId (src/routes/auth.js lines 449-478). -/
structure DeleteResp where
  statusCode : Nat
  success : Bool
  message : String
  deriving DecidableEq

/-- The row filter of the DELETE statement:
DELETE FROM sms_messages WHERE user_id = ? AND sms_id = ?. -/
def deleteMatch (u : Nat) (sid : String) (r : AuthRow) : Bool :=
  decide (r.userId = u ∧ r.smsId = sid)

/-- The delete handler DELETE /:smsId (src/routes/auth.js lines 449-478):
rows of this user with this sms_id are removed; affectedRows 0 yields the
404 not-found response. -/
def deleteSms (db : List AuthRow) (u : Nat) (sid : String) : List AuthRow × DeleteResp :=
  let affected := (db.filter (deleteMatch u sid)).length
  if affected = 0 then (db, ⟨404, false, "SMS message not found"⟩)
  else (db.filter fun r => ! deleteMatch u sid r, ⟨200, true, "SMS message deleted successfully"⟩)

/-- A thrown JS error of the single-message handler; a ReferenceError
carries no mysql error code. -/
inductive JsError where
  | referenceError (name : String)
  deriving DecidableEq

/-- The code property read by the catch block; a ReferenceError has none
(error.code is undefined). -/
def errorCode : JsError → Option String
  | JsError.referenceError _ => none

/-- Every name in scope at the INSERT of POST /message
(src/routes/sms.js line 77): the module-level bindings of sms.js, the
handler parameters, the handler locals, and the Node globals.  The name id
is not among them (the id validation rule at line 23 is commented out and
req.body is never destructured into an id binding). -/
def postMessageScope : List String :=
  ["express", "body", "validationResult", "pool", "authenticateToken", "router",
   "handleValidationErrors", "singleSMSValidation", "multipleSMSValidation",
   "req", "res", "address", "date", "type", "contactName", "dateFormatted",
   "userId", "existingMessages", "isNew", "savedMessage",
   "require", "module", "exports", "console", "process", "global"]

/-- Evaluating a variable: a name not in scope throws a ReferenceError. -/
def lookupVar (scope : List String) (x : String) : Except JsError Unit :=
  if x ∈ scope then Except.ok () else Except.error (JsError.referenceError x)

/-- The response of POST /api/sms/message (src/routes/sms.js). -/
structure SingleResp where
  statusCode : Nat
  success : Bool
  message : String
  deriving DecidableEq

/-- The existence query of POST /message (src/routes/sms.js lines 54-57):
a row with the same date, user, address and body. -/
def contentExists4 (db : List Row) (u : Nat) (m : Msg) : Bool :=
  db.any fun r => decide (r.date = m.date ∧ r.userId = u ∧ r.address = m.address ∧ r.body = m.body)

/-- The single-message handler POST /message (src/routes/sms.js lines
48-120): an existing (date, user, address, body) row yields the 200 update
response; otherwise the INSERT evaluates the variable id, and a thrown
error reaches the catch block, which answers 409 only for ER_DUP_ENTRY and
500 otherwise. -/
def postMessage (db : List Row) (u : Nat) (m : Msg) : List Row × SingleResp :=
  if contentExists4 db u m then
    (db, ⟨200, true, "SMS message updated successfully"⟩)
  else
    match lookupVar postMessageScope "id" with
    | Except.ok _ =>
      (db ++ [rowOf u m], ⟨201, true, "SMS message created successfully"⟩)
    | Except.error e =>
      match errorCode e with
      | some c =>
        if c = "ER_DUP_ENTRY" then
          (db, ⟨409, false, "Message ID already exists. Please use a unique ID."⟩)
        else (db, ⟨500, false, "Failed to save SMS message"⟩)
      | none => (db, ⟨500, false, "Failed to save SMS message"⟩)

/-! Lemmas about the content-keyed bulk loop. -/

lemma smsStep_shape (u : Nat) (ex : List String) (e : Option DbErr) (st : SmsLoopState)
    (m : Msg) :
    (¬ (truthyP m ∧ smsKey m ∈ ex) ∧
      ∃ err, smsStep u ex e st m = { st with errors := st.errors ++ [err] }) ∨
    (truthyP m ∧ smsKey m ∈ ex ∧ smsStep u ex e st m = st) ∨
    (truthyP m ∧ smsKey m ∉ ex ∧ schemaConflict st.db (rowOf u m) = false ∧
      smsStep u ex e st m =
        { st with db := st.db ++ [rowOf u m], inserted := st.inserted + 1 }) := by
  by_cases h1 : truthyP m
  · by_cases h2 : smsKey m ∈ ex
    · right; left
      exact ⟨h1, h2, by simp [smsStep, h1, h2]⟩
    · cases e with
      | some er =>
        left
        refine ⟨fun h => h2 h.2, ⟨errLabel m, errText er⟩, ?_⟩
        simp [smsStep, h1, h2]
      | none =>
        by_cases h3 : schemaConflict st.db (rowOf u m)
        · left
          refine ⟨fun h => h2 h.2, ⟨errLabel m, errText DbErr.dupEntry⟩, ?_⟩
          simp [smsStep, h1, h2, h3]
        · right; right
          refine ⟨h1, h2, by simpa using h3, ?_⟩
          simp [smsStep, h1, h2, h3]
  · left
    refine ⟨fun h => h1 h.1, missingFieldsError m, ?_⟩
    simp [smsStep, h1]

lemma smsProcess_db_mono (u : Nat) (ex : List String) (o : Nat → Option DbErr) :
    ∀ (msgs : List Msg) (i : Nat) (st : SmsLoopState),
      ∃ ext, (smsProcess u ex o i msgs st).db = st.db ++ ext := by
  intro msgs
  induction msgs with
  | nil => intro i st; exact ⟨[], by simp [smsProcess]⟩
  | cons m rest ih =>
    intro i st
    have hF : smsProcess u ex o i (m :: rest) st
        = smsProcess u ex o (i + 1) rest (smsStep u ex (o i) st m) := rfl
    rcases ih (i + 1) (smsStep u ex (o i) st m) with ⟨ext2, h2⟩
    rcases smsStep_shape u ex (o i) st m with ⟨_, err, hs⟩ | ⟨_, _, hs⟩ | ⟨_, _, _, hs⟩
    · exact ⟨ext2, by rw [hF, h2, hs]⟩
    · exact ⟨ext2, by rw [hF, h2, hs]⟩
    · exact ⟨rowOf u m :: ext2, by rw [hF, h2, hs]; simp⟩

lemma smsProcess_errors_mono (u : Nat) (ex : List String) (o : Nat → Option DbErr) :
    ∀ (msgs : List Msg) (i : Nat) (st : SmsLoopState),
      ∃ ext, (smsProcess u ex o i msgs st).errors = st.errors ++ ext := by
  intro msgs
  induction msgs with
  | nil => intro i st; exact ⟨[], by simp [smsProcess]⟩
  | cons m rest ih =>
    intro i st
    have hF : smsProcess u ex o i (m :: rest) st
        = smsProcess u ex o (i + 1) rest (smsStep u ex (o i) st m) := rfl
    rcases ih (i + 1) (smsStep u ex (o i) st m) with ⟨ext2, h2⟩
    rcases smsStep_shape u ex (o i) st m with ⟨_, err, hs⟩ | ⟨_, _, hs⟩ | ⟨_, _, _, hs⟩
    · exact ⟨err :: ext2, by rw [hF, h2, hs]; simp⟩
    · exact ⟨ext2, by rw [hF, h2, hs]⟩
    · exact ⟨ext2, by rw [hF, h2, hs]⟩

lemma smsProcess_no_error_items (u : Nat) (ex : List String) (o : Nat → Option DbErr) :
    ∀ (msgs : List Msg) (i : Nat) (st : SmsLoopState),
      (smsProcess u ex o i msgs st).errors.length = st.errors.length →
      ∀ m ∈ msgs, truthyP m ∧
        (smsKey m ∈ ex ∨ rowOf u m ∈ (smsProcess u ex o i msgs st).db) := by
  intro msgs
  induction msgs with
  | nil => intro i st _ m hm; cases hm
  | cons m0 rest ih =>
    intro i st hlen m hm
    have hF : smsProcess u ex o i (m0 :: rest) st
        = smsProcess u ex o (i + 1) rest (smsStep u ex (o i) st m0) := rfl
    rw [hF] at hlen
    rcases smsProcess_errors_mono u ex o rest (i + 1) (smsStep u ex (o i) st m0) with ⟨ext2, he2⟩
    rcases smsStep_shape u ex (o i) st m0 with ⟨_, err, hs⟩ | ⟨ht, hmem, hs⟩ | ⟨ht, hnmem, hcf, hs⟩
    · exfalso
      rw [he2, hs] at hlen
      simp at hlen
    · rcases List.mem_cons.mp hm with rfl | hm'
      · exact ⟨ht, Or.inl hmem⟩
      · rw [hs] at hlen
        have := ih (i + 1) st hlen m hm'
        rw [hF, hs]
        exact this
    · have hEeq : (smsStep u ex (o i) st m0).errors = st.errors := by rw [hs]
      have hlen' : (smsProcess u ex o (i + 1) rest (smsStep u ex (o i) st m0)).errors.length
          = (smsStep u ex (o i) st m0).errors.length := by
        rw [hEeq]
        exact hlen
      rcases List.mem_cons.mp hm with rfl | hm'
      · refine ⟨ht, Or.inr ?_⟩
        rcases smsProcess_db_mono u ex o rest (i + 1) (smsStep u ex (o i) st m) with ⟨ext3, h3⟩
        rw [hF, h3, hs]
        simp
      · have := ih (i + 1) (smsStep u ex (o i) st m0) hlen' m hm'
        rw [hF]
        exact this

lemma smsProcess_all_skip (u : Nat) (ex : List String) (o : Nat → Option DbErr) :
    ∀ (msgs : List Msg) (i : Nat) (st : SmsLoopState),
      (∀ m ∈ msgs, truthyP m ∧ smsKey m ∈ ex) →
      smsProcess u ex o i msgs st = st := by
  intro msgs
  induction msgs with
  | nil => intro i st _; rfl
  | cons m0 rest ih =>
    intro i st h
    have h0 := h m0 (List.mem_cons_self m0 rest)
    have hst : smsStep u ex (o i) st m0 = st := by
      simp [smsStep, h0.1, h0.2]
    have hF : smsProcess u ex o i (m0 :: rest) st
        = smsProcess u ex o (i + 1) rest (smsStep u ex (o i) st m0) := rfl
    rw [hF, hst]
    exact ih (i + 1) st (fun m hm => h m (List.mem_cons_of_mem m0 hm))

lemma smsProcess_all_missing (u : Nat) (ex : List String) (o : Nat → Option DbErr) :
    ∀ (msgs : List Msg) (i : Nat) (st : SmsLoopState),
      (∀ m ∈ msgs, ¬ truthyP m) →
      smsProcess u ex o i msgs st
        = { st with errors := st.errors ++ msgs.map missingFieldsError } := by
  intro msgs
  induction msgs with
  | nil => intro i st _; simp [smsProcess]
  | cons m0 rest ih =>
    intro i st h
    have h0 := h m0 (List.mem_cons_self m0 rest)
    have hst : smsStep u ex (o i) st m0
        = { st with errors := st.errors ++ [missingFieldsError m0] } := by
      simp [smsStep, h0]
    have hF : smsProcess u ex o i (m0 :: rest) st
        = smsProcess u ex o (i + 1) rest (smsStep u ex (o i) st m0) := rfl
    rw [hF, hst, ih (i + 1) _ (fun m hm => h m (List.mem_cons_of_mem m0 hm))]
    simp

/-- At most one of skip, insert, error happens per item: the skip
predicate of the accounting identity. -/
def skipPred (ex : List String) (m : Msg) : Bool :=
  decide (truthyP m) && decide (smsKey m ∈ ex)

lemma smsProcess_accounting (u : Nat) (ex : List String) (o : Nat → Option DbErr) :
    ∀ (msgs : List Msg) (i : Nat) (st : SmsLoopState),
      (smsProcess u ex o i msgs st).inserted + (smsProcess u ex o i msgs st).errors.length +
          msgs.countP (skipPred ex)
        = st.inserted + st.errors.length + msgs.length := by
  intro msgs
  induction msgs with
  | nil => intro i st; simp [smsProcess]
  | cons m0 rest ih =>
    intro i st
    have hF : smsProcess u ex o i (m0 :: rest) st
        = smsProcess u ex o (i + 1) rest (smsStep u ex (o i) st m0) := rfl
    have hc : (m0 :: rest).countP (skipPred ex)
        = rest.countP (skipPred ex) + (if skipPred ex m0 then 1 else 0) := by
      simp [List.countP_cons]
    rcases smsStep_shape u ex (o i) st m0 with ⟨hns, err, hs⟩ | ⟨ht, hmem, hs⟩ | ⟨ht, hnmem, hcf, hs⟩
    · have hp : skipPred ex m0 = false := by
        unfold skipPred
        rcases not_and_or.mp hns with h | h <;> simp [h]
      have hI : (smsStep u ex (o i) st m0).inserted = st.inserted := by rw [hs]
      have hE : (smsStep u ex (o i) st m0).errors.length = st.errors.length + 1 := by
        rw [hs]; simp
      have hT := ih (i + 1) (smsStep u ex (o i) st m0)
      rw [hF, hc, hp]
      simp only [List.length_cons, if_false, Bool.false_eq_true]
      omega
    · have hp : skipPred ex m0 = true := by
        simp [skipPred, ht, hmem]
      have hI : (smsStep u ex (o i) st m0).inserted = st.inserted := by rw [hs]
      have hE : (smsStep u ex (o i) st m0).errors.length = st.errors.length := by rw [hs]
      have hT := ih (i + 1) (smsStep u ex (o i) st m0)
      rw [hF, hc, hp]
      simp only [List.length_cons, if_true]
      omega
    · have hp : skipPred ex m0 = false := by
        simp [skipPred, hnmem]
      have hI : (smsStep u ex (o i) st m0).inserted = st.inserted + 1 := by rw [hs]
      have hE : (smsStep u ex (o i) st m0).errors.length = st.errors.length := by rw [hs]
      have hT := ih (i + 1) (smsStep u ex (o i) st m0)
      rw [hF, hc, hp]
      simp only [List.length_cons, if_false, Bool.false_eq_true]
      omega

lemma smsProcess_unique (u : Nat) (ex : List String) (o : Nat → Option DbErr) :
    ∀ (msgs : List Msg) (i : Nat) (st : SmsLoopState),
      smsUnique st.db → smsUnique (smsProcess u ex o i msgs st).db := by
  intro msgs
  induction msgs with
  | nil => intro i st h; exact h
  | cons m0 rest ih =>
    intro i st h
    have hF : smsProcess u ex o i (m0 :: rest) st
        = smsProcess u ex o (i + 1) rest (smsStep u ex (o i) st m0) := rfl
    rw [hF]
    rcases smsStep_shape u ex (o i) st m0 with ⟨_, err, hs⟩ | ⟨_, _, hs⟩ | ⟨_, _, hcf, hs⟩
    · exact ih (i + 1) _ (by rw [hs]; exact h)
    · exact ih (i + 1) _ (by rw [hs]; exact h)
    · refine ih (i + 1) _ ?_
      rw [hs]
      have hall : ∀ r2 ∈ st.db, ¬ sameSchemaKey r2 (rowOf u m0) := by
        intro r2 hr2
        have := List.any_eq_false.mp hcf r2 hr2
        simpa using this
      unfold smsUnique at h ⊢
      rw [List.pairwise_append]
      exact ⟨h, List.pairwise_singleton _ _, fun a ha b hb => by
        simp at hb
        subst hb
        exact hall a ha⟩

lemma contentExists_mono (db ext : List Row) (u : Nat) (m : Msg) :
    contentExists db u m = true → contentExists (db ++ ext) u m = true := by
  simp [contentExists, List.any_append]
  intro r hr h1 h2 h3 h4
  exact Or.inl ⟨r, hr, h1, h2, h3, h4⟩

lemma mem_preCheck (db : List Row) (u : Nat) (msgs : List Msg) (s : String) :
    s ∈ preCheck db u msgs ↔
      ∃ m, m ∈ msgs ∧ preCheckGuard m = true ∧ contentExists db u m = true ∧ smsKey m = s := by
  simp [preCheck, List.mem_map, List.mem_filter, Bool.and_eq_true]
  tauto

/-! Lemmas about the id-keyed bulk loop. -/

lemma authStep_shape (u : Nat) (e : Option String) (st : AuthLoopState) (it : AuthItem) :
    (∃ err, authStep u e st it = { st with errors := st.errors ++ [err] }) ∨
    (idExists st.db u it.smsId = true ∧ authStep u e st it = { st with dup := st.dup + 1 }) ∨
    (idExists st.db u it.smsId = false ∧
      authStep u e st it = { st with db := st.db ++ [authRowOf u it], saved := st.saved + 1 }) := by
  cases e with
  | some msg =>
    left
    exact ⟨⟨it.smsId, msg⟩, by simp [authStep]⟩
  | none =>
    by_cases h : idExists st.db u it.smsId
    · right; left
      exact ⟨h, by simp [authStep, h]⟩
    · right; right
      refine ⟨by simpa using h, ?_⟩
      simp [authStep, h]

lemma authProcess_db_mono (u : Nat) (o : Nat → Option String) :
    ∀ (items : List AuthItem) (i : Nat) (st : AuthLoopState),
      ∃ ext, (authProcess u o i items st).db = st.db ++ ext := by
  intro items
  induction items with
  | nil => intro i st; exact ⟨[], by simp [authProcess]⟩
  | cons it rest ih =>
    intro i st
    have hF : authProcess u o i (it :: rest) st
        = authProcess u o (i + 1) rest (authStep u (o i) st it) := rfl
    rcases ih (i + 1) (authStep u (o i) st it) with ⟨ext2, h2⟩
    rcases authStep_shape u (o i) st it with ⟨err, hs⟩ | ⟨_, hs⟩ | ⟨_, hs⟩
    · exact ⟨ext2, by rw [hF, h2, hs]⟩
    · exact ⟨ext2, by rw [hF, h2, hs]⟩
    · exact ⟨authRowOf u it :: ext2, by rw [hF, h2, hs]; simp⟩

lemma idExists_mono (db ext : List AuthRow) (u : Nat) (sid : String) :
    idExists db u sid = true → idExists (db ++ ext) u sid = true := by
  simp [idExists, List.any_append]
  intro r hr h1 h2
  exact Or.inl ⟨r, hr, h1, h2⟩

lemma authProcess_exists_after (u : Nat) :
    ∀ (items : List AuthItem) (i : Nat) (st : AuthLoopState),
      ∀ it ∈ items, idExists (authProcess u noThrowS i items st).db u it.smsId = true := by
  intro items
  induction items with
  | nil => intro i st it hit; cases hit
  | cons it0 rest ih =>
    intro i st it hit
    have hF : authProcess u noThrowS i (it0 :: rest) st
        = authProcess u noThrowS (i + 1) rest (authStep u none st it0) := rfl
    rw [hF]
    rcases List.mem_cons.mp hit with rfl | hit'
    · rcases authProcess_db_mono u noThrowS rest (i + 1) (authStep u none st it) with ⟨ext2, h2⟩
      rw [h2]
      have hbase : idExists (authStep u none st it).db u it.smsId = true := by
        by_cases h : idExists st.db u it.smsId
        · have hst : authStep u none st it = { st with dup := st.dup + 1 } := by
            simp [authStep, h]
          rw [hst]
          exact h
        · have hfalse : idExists st.db u it.smsId = false := by simpa using h
          have hst : authStep u none st it
              = { st with db := st.db ++ [authRowOf u it], saved := st.saved + 1 } := by
            simp [authStep, hfalse]
          rw [hst]
          simp [idExists, List.any_append, authRowOf]
      exact idExists_mono _ _ _ _ hbase
    · exact ih (i + 1) (authStep u none st it0) it hit'

lemma authProcess_all_dup (u : Nat) :
    ∀ (items : List AuthItem) (i : Nat) (st : AuthLoopState),
      (∀ it ∈ items, idExists st.db u it.smsId = true) →
      (authProcess u noThrowS i items st).db = st.db ∧
        (authProcess u noThrowS i items st).saved = st.saved ∧
        (authProcess u noThrowS i items st).dup = st.dup + items.length ∧
        (authProcess u noThrowS i items st).errors = st.errors := by
  intro items
  induction items with
  | nil => intro i st _; simp [authProcess]
  | cons it0 rest ih =>
    intro i st h
    have h0 := h it0 (List.mem_cons_self it0 rest)
    have hst : authStep u none st it0 = { st with dup := st.dup + 1 } := by
      simp [authStep, h0]
    have hF : authProcess u noThrowS i (it0 :: rest) st
        = authProcess u noThrowS (i + 1) rest (authStep u none st it0) := rfl
    have hrest : ∀ it ∈ rest, idExists ({ st with dup := st.dup + 1 } : AuthLoopState).db u it.smsId = true := by
      intro it hit
      exact h it (List.mem_cons_of_mem it0 hit)
    have hthis := ih (i + 1) { st with dup := st.dup + 1 } hrest
    rw [hF, hst]
    refine ⟨hthis.1, hthis.2.1, ?_, hthis.2.2.2⟩
    rw [hthis.2.2.1]
    simp
    omega

lemma authProcess_benign (u : Nat) :
    ∀ (items : List AuthItem) (i : Nat) (st : AuthLoopState),
      (authProcess u noThrowS i items st).errors = st.errors ∧
        (authProcess u noThrowS i items st).saved + (authProcess u noThrowS i items st).dup
          = st.saved + st.dup + items.length := by
  intro items
  induction items with
  | nil => intro i st; simp [authProcess]
  | cons it0 rest ih =>
    intro i st
    have hF : authProcess u noThrowS i (it0 :: rest) st
        = authProcess u noThrowS (i + 1) rest (authStep u none st it0) := rfl
    rw [hF]
    by_cases h : idExists st.db u it0.smsId
    · have hst : authStep u none st it0 = { st with dup := st.dup + 1 } := by
        simp [authStep, h]
      have hthis := ih (i + 1) ({ st with dup := st.dup + 1 } : AuthLoopState)
      rw [hst]
      refine ⟨hthis.1, ?_⟩
      rw [hthis.2]
      simp
      omega
    · have hfalse : idExists st.db u it0.smsId = false := by simpa using h
      have hst : authStep u none st it0
          = { st with db := st.db ++ [authRowOf u it0], saved := st.saved + 1 } := by
        simp [authStep, hfalse]
      have hthis := ih (i + 1)
        ({ st with db := st.db ++ [authRowOf u it0], saved := st.saved + 1 } : AuthLoopState)
      rw [hst]
      refine ⟨hthis.1, ?_⟩
      rw [hthis.2]
      simp
      omega

lemma authProcess_accounting (u : Nat) (o : Nat → Option String) :
    ∀ (items : List AuthItem) (i : Nat) (st : AuthLoopState),
      (authProcess u o i items st).saved + (authProcess u o i items st).dup +
          (authProcess u o i items st).errors.length
        = st.saved + st.dup + st.errors.length + items.length := by
  intro items
  induction items with
  | nil => intro i st; simp [authProcess]
  | cons it0 rest ih =>
    intro i st
    have hF : authProcess u o i (it0 :: rest) st
        = authProcess u o (i + 1) rest (authStep u (o i) st it0) := rfl
    have hT := ih (i + 1) (authStep u (o i) st it0)
    rw [hF]
    rcases authStep_shape u (o i) st it0 with ⟨err, hs⟩ | ⟨_, hs⟩ | ⟨_, hs⟩
    · have hS : (authStep u (o i) st it0).saved = st.saved := by rw [hs]
      have hD : (authStep u (o i) st it0).dup = st.dup := by rw [hs]
      have hE : (authStep u (o i) st it0).errors.length = st.errors.length + 1 := by
        rw [hs]; simp
      simp only [List.length_cons]
      omega
    · have hS : (authStep u (o i) st it0).saved = st.saved := by rw [hs]
      have hD : (authStep u (o i) st it0).dup = st.dup + 1 := by rw [hs]
      have hE : (authStep u (o i) st it0).errors.length = st.errors.length := by rw [hs]
      simp only [List.length_cons]
      omega
    · have hS : (authStep u (o i) st it0).saved = st.saved + 1 := by rw [hs]
      have hD : (authStep u (o i) st it0).dup = st.dup := by rw [hs]
      have hE : (authStep u (o i) st it0).errors.length = st.errors.length := by rw [hs]
      simp only [List.length_cons]
      omega

lemma authProcess_unique (u : Nat) (o : Nat → Option String) :
    ∀ (items : List AuthItem) (i : Nat) (st : AuthLoopState),
      authUnique st.db → authUnique (authProcess u o i items st).db := by
  intro items
  induction items with
  | nil => intro i st h; exact h
  | cons it0 rest ih =>
    intro i st h
    have hF : authProcess u o i (it0 :: rest) st
        = authProcess u o (i + 1) rest (authStep u (o i) st it0) := rfl
    rw [hF]
    rcases authStep_shape u (o i) st it0 with ⟨err, hs⟩ | ⟨_, hs⟩ | ⟨hnx, hs⟩
    · exact ih (i + 1) _ (by rw [hs]; exact h)
    · exact ih (i + 1) _ (by rw [hs]; exact h)
    · refine ih (i + 1) _ ?_
      rw [hs]
      have hall : ∀ r2 ∈ st.db, ¬ (r2.userId = u ∧ r2.smsId = it0.smsId) := by
        intro r2 hr2
        have := List.any_eq_false.mp hnx r2 hr2
        simpa using this
      unfold authUnique at h ⊢
      rw [List.pairwise_append]
      refine ⟨h, List.pairwise_singleton _ _, fun a ha b hb => ?_⟩
      simp at hb
      subst hb
      intro hk
      exact hall a ha ⟨hk.1, by simpa [authRowOf] using hk.2⟩

lemma wildErrs_nil_of_all (field msg : String) (check : Msg → Bool) :
    ∀ (msgs : List Msg) (i : Nat), (∀ m ∈ msgs, check m = true) →
      wildErrs field msg check i msgs = [] := by
  intro msgs
  induction msgs with
  | nil => intro i _; rfl
  | cons m0 rest ih =>
    intro i h
    have h0 := h m0 (List.mem_cons_self m0 rest)
    simp [wildErrs, h0]
    exact ih (i + 1) (fun m hm => h m (List.mem_cons_of_mem m0 hm))

lemma smsProcess_updated (u : Nat) (ex : List String) (o : Nat → Option DbErr) :
    ∀ (msgs : List Msg) (i : Nat) (st : SmsLoopState),
      (smsProcess u ex o i msgs st).updated = st.updated := by
  intro msgs
  induction msgs with
  | nil => intro i st; rfl
  | cons m0 rest ih =>
    intro i st
    have hF : smsProcess u ex o i (m0 :: rest) st
        = smsProcess u ex o (i + 1) rest (smsStep u ex (o i) st m0) := rfl
    rw [hF, ih (i + 1) (smsStep u ex (o i) st m0)]
    rcases smsStep_shape u ex (o i) st m0 with ⟨_, err, hs⟩ | ⟨_, _, hs⟩ | ⟨_, _, _, hs⟩ <;>
      rw [hs]

/-! The claims. -/

/-- Claim C4: for every list request, whatever raw page and page-size
parameters the caller supplies, the effective page size is at least 1 and
at most 1000 (values above the maximum are clamped to 1000) and the
effective page number is at least 1 (for requested page below 1 the
effective page is 1). -/
theorem claim4_pagination_clamped :
    (∀ p : Option Int, 1 ≤ pageNum p) ∧
    (∀ l : Option Int, 1 ≤ limitNum l ∧ limitNum l ≤ 1000) ∧
    (∀ n : Int, 1000 < n → limitNum (some n) = 1000) ∧
    (∀ n : Int, n < 1 → pageNum (some n) = 1) := by
  refine ⟨?_, ?_, ?_, ?_⟩
  · intro p
    unfold pageNum
    exact le_max_left 1 _
  · intro l
    unfold limitNum
    exact ⟨le_max_left 1 _, max_le (by norm_num) (min_le_left 1000 _)⟩
  · intro n hn
    have h1 : jsOrInt (some n) 100 = if n = 0 then 100 else n := rfl
    unfold limitNum
    rw [h1, if_neg (by omega), min_eq_left (by omega),
      max_eq_right (by norm_num : (1 : Int) ≤ 1000)]
  · intro n hn
    have h1 : jsOrInt (some n) 1 = if n = 0 then 1 else n := rfl
    unfold pageNum
    rw [h1]
    by_cases h0 : n = 0
    · simp [h0]
    · rw [if_neg h0, max_eq_left (by omega)]

/-- Witness for C4 at concrete inputs: a requested limit of 5000 is clamped
to 1000, a requested page of -5 becomes 1, and an unparsable limit stays in
bounds. -/
theorem claim4_witness :
    limitNum (some 5000) = 1000 ∧ pageNum (some (-5)) = 1 ∧
      (1 ≤ limitNum none ∧ limitNum none ≤ 1000) := by
  exact ⟨claim4_pagination_clamped.2.2.1 5000 (by norm_num),
    claim4_pagination_clamped.2.2.2 (-5) (by norm_num),
    claim4_pagination_clamped.2.1 none⟩

/-- Claim C7: deleting a message by an sms_id that has no stored row for
this user yields the 404 not-found response and removes no row from
storage, rows of other users with the same sms_id included. -/
theorem claim7_delete_missing_not_found (db : List AuthRow) (u : Nat) (sid : String)
    (h : ∀ r ∈ db, ¬ (r.userId = u ∧ r.smsId = sid)) :
    deleteSms db u sid = (db, ⟨404, false, "SMS message not found"⟩) := by
  have hfil : db.filter (deleteMatch u sid) = [] := by
    rw [List.filter_eq_nil_iff]
    intro r hr
    simpa [deleteMatch] using h r hr
  simp [deleteSms, hfil]

/-- Witness for C7: deleting sms_id m1 as user 1 when only user 2 holds a
row with that sms_id answers 404 and leaves the store unchanged. -/
theorem claim7_witness :
    deleteSms [⟨2, "m1", "a", "b", "d", 1⟩] 1 "m1"
      = ([⟨2, "m1", "a", "b", "d", 1⟩], ⟨404, false, "SMS message not found"⟩) := by
  exact claim7_delete_missing_not_found _ 1 "m1" (by decide)

/-- Claim C9: for every request to the content-keyed single-message
endpoint whose (user, address, body, date) combination is not already
stored, the insert path evaluates the undefined variable id, so the handler
throws a ReferenceError (which carries no ER_DUP_ENTRY code), no row is
inserted, and the response is the 500 failure; the 201 created branch is
unreachable for new messages. -/
theorem claim9_single_insert_always_fails (db : List Row) (u : Nat) (m : Msg)
    (h : contentExists4 db u m = false) :
    postMessage db u m = (db, ⟨500, false, "Failed to save SMS message"⟩) := by
  have hid : lookupVar postMessageScope "id"
      = Except.error (JsError.referenceError "id") := by
    have hnotin : "id" ∉ postMessageScope := by decide
    simp [lookupVar, hnotin]
  simp [postMessage, h, hid, errorCode]

/-- Witness for C9: a fresh message against an empty store gets the 500
failure response and inserts nothing. -/
theorem claim9_witness :
    postMessage [] 1 ⟨"555", "hi", 5, 1, none, none⟩
      = ([], ⟨500, false, "Failed to save SMS message"⟩) := by
  exact claim9_single_insert_always_fails [] 1 ⟨"555", "hi", 5, 1, none, none⟩ (by decide)

/-- Claim C2 (amended): the content-keyed bulk endpoint classifies the
outcome three ways — 200 when no item errored, 207 when some items were
processed and some errored, 400 when items errored and none was processed —
but the id-keyed bulk endpoint always answers HTTP 200 with success true,
whatever the per-item outcomes. -/
theorem claim2_batch_outcome_classification :
    (∀ (db : List Row) (u : Nat) (m : Msg) (rest : List Msg) (o : Nat → Option DbErr),
      ((smsBulk db u (m :: rest) o).2.statusCode
          = if (smsBulk db u (m :: rest) o).2.erroredMessages = 0 then 200
            else if 0 < (smsBulk db u (m :: rest) o).2.processedMessages then 207 else 400) ∧
      ((smsBulk db u (m :: rest) o).2.success = true ↔
        ((smsBulk db u (m :: rest) o).2.erroredMessages = 0 ∨
          0 < (smsBulk db u (m :: rest) o).2.processedMessages))) ∧
    (∀ (db : List AuthRow) (u : Nat) (items : List AuthItem) (o : Nat → Option String),
      (authBulk db u items o).2.statusCode = 200 ∧ (authBulk db u items o).2.success = true) := by
  constructor
  · intro db u m rest o
    simp only [smsBulk, List.isEmpty_cons, Bool.false_eq_true, if_false]
    rcases hE : (smsProcess u (preCheck db u (m :: rest)) o 0 (m :: rest) ⟨db, 0, 0, []⟩).errors
      with _ | ⟨e, es⟩ <;> simp [hE]
  · intro db u items o
    exact ⟨rfl, rfl⟩

/-- Counterexample to C2 as stated: an id-keyed bulk submission in which
every item errors (no item processed successfully) is still reported as a
total success — HTTP 200, success true — contradicting the claim that a
fully failed batch is never reported as success. -/
theorem claim2_cex :
    (authBulk [] 1 [⟨"s1", "a", "b", "d", none⟩] (fun _ => some "boom")).2
      = ⟨200, true, "Bulk SMS save completed", 1, 0, 0, 1, [⟨"s1", "boom"⟩]⟩ := by
  rfl

/-- Claim C5 (amended): in the id-keyed bulk endpoint an insert that finds
the identical (user_id, sms_id) key already stored is absorbed by INSERT
IGNORE and counted as duplicate — a batch of items whose keys all exist
comes back duplicateCount N, savedCount 0, errorCount 0 with the store
unchanged, no item is ever reported as an error without a storage throw,
every item is classified saved or duplicate, and a concrete mixed run shows
the existing-key item counted duplicate while the following fresh item is
still saved (not fatal); in the content-keyed bulk endpoint a uniqueness
conflict during the insert is recorded as a per-item error labelled
Duplicate entry conflict, not as a duplicate, and the batch continues past
it. -/
theorem claim5_uniqueness_race_outcome :
    (∀ (db : List AuthRow) (u : Nat) (items : List AuthItem),
      (∀ it ∈ items, idExists db u it.smsId = true) →
      (authBulk db u items noThrowS).1 = db ∧
      (authBulk db u items noThrowS).2.duplicateCount = items.length ∧
      (authBulk db u items noThrowS).2.savedCount = 0 ∧
      (authBulk db u items noThrowS).2.errorCount = 0) ∧
    (∀ (db : List AuthRow) (u : Nat) (items : List AuthItem),
      (authBulk db u items noThrowS).2.errorCount = 0 ∧
      (authBulk db u items noThrowS).2.savedCount + (authBulk db u items noThrowS).2.duplicateCount
        = (authBulk db u items noThrowS).2.totalProcessed) ∧
    (authBulk [⟨7, "k1", "a", "b", "d", 1⟩] 7
        [⟨"k1", "a", "b", "d", none⟩, ⟨"k2", "a2", "b2", "d2", none⟩] noThrowS
      = ([⟨7, "k1", "a", "b", "d", 1⟩, ⟨7, "k2", "a2", "b2", "d2", 1⟩],
         ⟨200, true, "Bulk SMS save completed", 2, 1, 1, 0, []⟩)) ∧
    (smsBulk [] 1 [⟨"555", "hi", 5, 1, none, none⟩, ⟨"555", "hi", 5, 1, none, none⟩,
        ⟨"777", "yo", 9, 1, none, none⟩] noThrow
      = ([⟨1, "555", "hi", 5, 1, none, none, none⟩, ⟨1, "777", "yo", 9, 1, none, none, none⟩],
         ⟨207, true, "Processed 2/3 messages with 1 errors", 3, 2, 0, 2, 1,
          [⟨"555 - hi...", "Duplicate entry conflict"⟩]⟩)) := by
  refine ⟨?_, ?_, by decide, by decide⟩
  · intro db u items h
    have hdup := authProcess_all_dup u items 0 ⟨db, 0, 0, []⟩ h
    simp only [authBulk]
    rw [hdup.1, hdup.2.1, hdup.2.2.1, hdup.2.2.2]
    simp
  · intro db u items
    have hb := authProcess_benign u items 0 ⟨db, 0, 0, []⟩
    simp only [authBulk]
    constructor
    · rw [hb.1]
      rfl
    · rw [hb.2]
      simp

/-- Witness for C5 at a concrete input: resubmitting an item whose
(user_id, sms_id) key is already stored leaves the store unchanged and
counts the item as duplicate, with zero saved and zero errors. -/
theorem claim5_witness :
    (authBulk [⟨4, "w1", "a", "b", "d", 1⟩] 4 [⟨"w1", "x", "y", "z", none⟩] noThrowS).1
      = [⟨4, "w1", "a", "b", "d", 1⟩] ∧
    (authBulk [⟨4, "w1", "a", "b", "d", 1⟩] 4 [⟨"w1", "x", "y", "z", none⟩]
        noThrowS).2.duplicateCount = 1 ∧
    (authBulk [⟨4, "w1", "a", "b", "d", 1⟩] 4 [⟨"w1", "x", "y", "z", none⟩]
        noThrowS).2.savedCount = 0 ∧
    (authBulk [⟨4, "w1", "a", "b", "d", 1⟩] 4 [⟨"w1", "x", "y", "z", none⟩]
        noThrowS).2.errorCount = 0 := by
  have ha := claim5_uniqueness_race_outcome.1 [⟨4, "w1", "a", "b", "d", 1⟩] 4
    [⟨"w1", "x", "y", "z", none⟩] (by decide)
  exact ⟨ha.1, ha.2.1, ha.2.2.1, ha.2.2.2⟩

/-- Counterexample to C5 as stated: in the content-keyed endpoint,
submitting the same new message twice in one batch makes the second insert
hit the storage unique key; the item lands in the error list as Duplicate
entry conflict and is counted in erroredMessages — it is reported as an
error, not as a duplicate (the report has no duplicate counter at all). -/
theorem claim5_cex :
    (smsBulk [] 1 [⟨"222", "ab", 7, 1, none, none⟩, ⟨"222", "ab", 7, 1, none, none⟩]
        noThrow).2.erroredMessages = 1 ∧
    (smsBulk [] 1 [⟨"222", "ab", 7, 1, none, none⟩, ⟨"222", "ab", 7, 1, none, none⟩]
        noThrow).2.errors = [⟨"222 - ab...", "Duplicate entry conflict"⟩] := by
  exact ⟨rfl, rfl⟩

/-- Claim C6 (amended): the id-keyed bulk report carries total, saved,
duplicate and errored counts and individually lists at most 10 errors,
counting the excess without listing it; the content-keyed bulk report has
no duplicate counter and lists every per-item error without any cap. -/
theorem claim6_error_report_cap :
    (∀ (db : List AuthRow) (u : Nat) (items : List AuthItem) (o : Nat → Option String),
      (authBulk db u items o).2.errors.length ≤ 10) ∧
    ((authBulk [] 1 (List.replicate 11 ⟨"s", "a", "b", "d", none⟩)
        (fun _ => some "boom")).2.errorCount = 11 ∧
      (authBulk [] 1 (List.replicate 11 ⟨"s", "a", "b", "d", none⟩)
        (fun _ => some "boom")).2.errors.length = 10) ∧
    ((smsBulk [] 1 (List.replicate 11 ⟨"a", "b", 1, 0, none, none⟩)
        noThrow).2.erroredMessages = 11 ∧
      (smsBulk [] 1 (List.replicate 11 ⟨"a", "b", 1, 0, none, none⟩)
        noThrow).2.errors.length = 11) := by
  refine ⟨?_, ⟨by decide, by decide⟩, ⟨by decide, by decide⟩⟩
  intro db u items o
  simp only [authBulk, List.length_take]
  exact min_le_left 10 _

/-- Counterexample to C6 as stated: a content-keyed bulk submission with 11
erroring items lists all 11 per-item errors in the response — more than the
claimed bound of 10. -/
theorem claim6_cex :
    (smsBulk [] 2 (List.replicate 11 ⟨"x", "y", 3, 0, none, none⟩) noThrow).2.errors.length
      = 11 := by
  rfl

/-- Claim C10: in the content-keyed bulk report the updatedMessages count
is always 0; every submitted item is inserted, errored or silently skipped
as a pre-existing key, and the skipped items appear in no counter, so
totalMessages exceeds insertedMessages plus erroredMessages exactly when a
key already existed (shown at a concrete input). -/
theorem claim10_duplicates_unreported :
    (∀ (db : List Row) (u : Nat) (msgs : List Msg) (o : Nat → Option DbErr),
      (smsBulk db u msgs o).2.updatedMessages = 0) ∧
    (∀ (db : List Row) (u : Nat) (msgs : List Msg) (o : Nat → Option DbErr),
      (smsBulk db u msgs o).2.insertedMessages + (smsBulk db u msgs o).2.erroredMessages +
          msgs.countP (skipPred (preCheck db u msgs))
        = (smsBulk db u msgs o).2.totalMessages) ∧
    ((smsBulk [⟨1, "555", "hi", 5, 1, none, none, none⟩] 1 [⟨"555", "hi", 5, 1, none, none⟩]
        noThrow).2.totalMessages = 1 ∧
      (smsBulk [⟨1, "555", "hi", 5, 1, none, none, none⟩] 1 [⟨"555", "hi", 5, 1, none, none⟩]
        noThrow).2.insertedMessages = 0 ∧
      (smsBulk [⟨1, "555", "hi", 5, 1, none, none, none⟩] 1 [⟨"555", "hi", 5, 1, none, none⟩]
        noThrow).2.erroredMessages = 0 ∧
      (smsBulk [⟨1, "555", "hi", 5, 1, none, none, none⟩] 1 [⟨"555", "hi", 5, 1, none, none⟩]
        noThrow).2.updatedMessages = 0) := by
  refine ⟨?_, ?_, ⟨by decide, by decide, by decide, by decide⟩⟩
  · intro db u msgs o
    cases msgs with
    | nil => rfl
    | cons m rest =>
      simp only [smsBulk, List.isEmpty_cons, Bool.false_eq_true, if_false]
      exact smsProcess_updated u (preCheck db u (m :: rest)) o (m :: rest) 0 ⟨db, 0, 0, []⟩
  · intro db u msgs o
    cases msgs with
    | nil => rfl
    | cons m rest =>
      simp only [smsBulk, List.isEmpty_cons, Bool.false_eq_true, if_false]
      have := smsProcess_accounting u (preCheck db u (m :: rest)) o (m :: rest) 0 ⟨db, 0, 0, []⟩
      simpa using this

/-- Claim C8: a bulk item for the content-keyed endpoint whose type is 0
passes validation (type must only be an integer at least 0), but the
handler truthiness check treats 0 as a missing required field, so every
such item is counted as errored and nothing is inserted. -/
theorem claim8_type_zero_rejected (db : List Row) (u : Nat) (m0 : Msg) (rest : List Msg)
    (o : Nat → Option DbErr)
    (h : ∀ m ∈ (m0 :: rest), jsTrim m.address ≠ "" ∧ m.body ≠ "" ∧ 0 ≤ m.date ∧ m.type = 0) :
    multipleSMSValidation (m0 :: rest) = [] ∧
    postMessagesEndpoint db u (m0 :: rest) o
      = ((smsBulk db u ((m0 :: rest).map sanitizeMsg) o).1,
         SmsEndpointResult.handled (smsBulk db u ((m0 :: rest).map sanitizeMsg) o).2) ∧
    (smsBulk db u ((m0 :: rest).map sanitizeMsg) o).1 = db ∧
    (smsBulk db u ((m0 :: rest).map sanitizeMsg) o).2.insertedMessages = 0 ∧
    (smsBulk db u ((m0 :: rest).map sanitizeMsg) o).2.erroredMessages = (m0 :: rest).length := by
  have hval : multipleSMSValidation (m0 :: rest) = [] := by
    have ha := wildErrs_nil_of_all "address" "Each message must have an address"
      (fun m => decide (jsTrim m.address ≠ "")) (m0 :: rest) 0
      (fun m hm => by simp [(h m hm).1])
    have hb := wildErrs_nil_of_all "body" "Each message must have a body"
      (fun m => decide (m.body ≠ "")) (m0 :: rest) 0
      (fun m hm => by simp [(h m hm).2.1])
    have hc := wildErrs_nil_of_all "date" "Each message must have a valid timestamp"
      (fun m => decide (0 ≤ m.date)) (m0 :: rest) 0
      (fun m hm => by simp [(h m hm).2.2.1])
    have hd := wildErrs_nil_of_all "type" "Each message must have a valid type"
      (fun m => decide (0 ≤ m.type)) (m0 :: rest) 0
      (fun m hm => by simp [(h m hm).2.2.2])
    unfold multipleSMSValidation
    rw [ha, hb, hc, hd]
    simp
  have hne : ((m0 :: rest).map sanitizeMsg).isEmpty = false := by simp
  have hmiss : ∀ m ∈ (m0 :: rest).map sanitizeMsg, ¬ truthyP m := by
    intro m hm
    rcases List.mem_map.mp hm with ⟨m1, hm1, rfl⟩
    intro ht
    exact ht.2.2.2 ((h m1 hm1).2.2.2)
  have hrun := smsProcess_all_missing u (preCheck db u ((m0 :: rest).map sanitizeMsg)) o
    ((m0 :: rest).map sanitizeMsg) 0 ⟨db, 0, 0, []⟩ hmiss
  have hst : smsProcess u (preCheck db u ((m0 :: rest).map sanitizeMsg)) o 0
      ((m0 :: rest).map sanitizeMsg) ⟨db, 0, 0, []⟩
      = ⟨db, 0, 0, ((m0 :: rest).map sanitizeMsg).map missingFieldsError⟩ := by
    rw [hrun]
    simp
  refine ⟨hval, ?_, ?_, ?_, ?_⟩
  · simp [postMessagesEndpoint, hval]
  · simp only [smsBulk, hne, Bool.false_eq_true, if_false]
    rw [hst]
  · simp only [smsBulk, hne, Bool.false_eq_true, if_false]
    rw [hst]
  · simp only [smsBulk, hne, Bool.false_eq_true, if_false]
    rw [hst]
    simp

/-- Witness for C8: a single valid-looking item with type 0 passes
validation yet is errored as missing required fields and never inserted. -/
theorem claim8_witness :
    multipleSMSValidation [⟨"5", "x", 1, 0, none, none⟩] = [] ∧
    (smsBulk [] 1 ([⟨"5", "x", 1, 0, none, none⟩].map sanitizeMsg) noThrow).1 = [] ∧
    (smsBulk [] 1 ([⟨"5", "x", 1, 0, none, none⟩].map sanitizeMsg) noThrow).2.insertedMessages
      = 0 ∧
    (smsBulk [] 1 ([⟨"5", "x", 1, 0, none, none⟩].map sanitizeMsg) noThrow).2.erroredMessages
      = 1 := by
  have ha := claim8_type_zero_rejected [] 1 ⟨"5", "x", 1, 0, none, none⟩ [] noThrow (by decide)
  exact ⟨ha.1, ha.2.2.1, ha.2.2.2.1, ha.2.2.2.2⟩

/-- Claim C3 (amended): a bulk batch of 3 items in which item 2 has a
negative timestamp is rejected whole by the validation middleware — the
response is the 400 validation failure referencing the date field of item 2
(path messages[1].date), the handler never runs, no item is processed and
the store is unchanged; there is no partial-success report. -/
theorem claim3_negative_timestamp_rejects_batch (db : List Row) (u : Nat) (m1 m2 m3 : Msg)
    (o : Nat → Option DbErr)
    (h1 : jsTrim m1.address ≠ "" ∧ m1.body ≠ "" ∧ 0 ≤ m1.date ∧ 0 ≤ m1.type)
    (h2 : jsTrim m2.address ≠ "" ∧ m2.body ≠ "" ∧ m2.date < 0 ∧ 0 ≤ m2.type)
    (h3 : jsTrim m3.address ≠ "" ∧ m3.body ≠ "" ∧ 0 ≤ m3.date ∧ 0 ≤ m3.type) :
    postMessagesEndpoint db u [m1, m2, m3] o
      = (db, SmsEndpointResult.validationFailed
          [⟨"messages[1].date", "Each message must have a valid timestamp"⟩]) := by
  have hd2 : ¬ (0 ≤ m2.date) := by
    have hx := h2.2.2.1
    omega
  have hve : multipleSMSValidation [m1, m2, m3]
      = [⟨"messages[1].date", "Each message must have a valid timestamp"⟩] := by
    simp [multipleSMSValidation, wildErrs, h1.1, h1.2.1, h1.2.2.1, h1.2.2.2,
      h2.1, h2.2.1, h2.2.2.2, h3.1, h3.2.1, h3.2.2.1, h3.2.2.2, hd2]
    rfl
  simp [postMessagesEndpoint, hve]

/-- Witness for C3: a concrete 3-item batch whose second item has timestamp
-5 is rejected whole with the messages[1].date validation error. -/
theorem claim3_witness :
    postMessagesEndpoint [] 1 [⟨"111", "a", 1, 1, none, none⟩, ⟨"222", "b", -5, 1, none, none⟩,
        ⟨"333", "c", 3, 1, none, none⟩] noThrow
      = ([], SmsEndpointResult.validationFailed
          [⟨"messages[1].date", "Each message must have a valid timestamp"⟩]) := by
  exact claim3_negative_timestamp_rejects_batch [] 1 _ _ _ noThrow
    (by decide) (by decide) (by decide)

/-- Counterexample to C3 as stated: at this concrete input the claim
expects a processed batch reporting inserted 2, errored 1 and a
partial-success status, but the endpoint answers with a 400 validation
failure, processes nothing and inserts nothing. -/
theorem claim3_cex :
    postMessagesEndpoint [] 7 [⟨"a1", "t1", 2, 1, none, none⟩, ⟨"a2", "t2", -7, 1, none, none⟩,
        ⟨"a3", "t3", 4, 1, none, none⟩] noThrow
      = ([], SmsEndpointResult.validationFailed
          [⟨"messages[1].date", "Each message must have a valid timestamp"⟩]) := by
  decide

/-- Claim C1 (amended): resubmitting an identical bulk batch yields zero
inserts and leaves the store unchanged; the id-keyed endpoint reports every
item of the second submission as duplicate (duplicate count N, no errors),
while the content-keyed endpoint reports the resubmitted items in no
counter at all (its report has no duplicate counter and updated stays 0) —
shown here for batches whose first submission reported no errors; and
under both storage unique keys the store never holds two rows with the
same key for a user. -/
theorem claim1_bulk_idempotence :
    (∀ (db : List AuthRow) (u : Nat) (items : List AuthItem),
      authBulk (authBulk db u items noThrowS).1 u items noThrowS
        = ((authBulk db u items noThrowS).1,
           ⟨200, true, "Bulk SMS save completed", items.length, 0, items.length, 0, []⟩)) ∧
    (∀ (db : List Row) (u : Nat) (m0 : Msg) (rest : List Msg) (o : Nat → Option DbErr),
      (smsBulk db u (m0 :: rest) o).2.erroredMessages = 0 →
      smsBulk (smsBulk db u (m0 :: rest) o).1 u (m0 :: rest) o
        = ((smsBulk db u (m0 :: rest) o).1,
           ⟨200, true, "All SMS messages processed successfully",
            (m0 :: rest).length, 0, 0, 0, 0, []⟩)) ∧
    (∀ (db : List AuthRow) (u : Nat) (items : List AuthItem) (o : Nat → Option String),
      authUnique db → authUnique (authBulk db u items o).1) ∧
    (∀ (db : List Row) (u : Nat) (msgs : List Msg) (o : Nat → Option DbErr),
      smsUnique db → smsUnique (smsBulk db u msgs o).1) := by
  refine ⟨?_, ?_, ?_, ?_⟩
  · intro db u items
    have hex := authProcess_exists_after u items 0 ⟨db, 0, 0, []⟩
    have hdup := authProcess_all_dup u items 0
      ⟨(authProcess u noThrowS 0 items ⟨db, 0, 0, []⟩).db, 0, 0, []⟩ hex
    simp only [authBulk]
    rw [hdup.1, hdup.2.1, hdup.2.2.1, hdup.2.2.2]
    simp
  · intro db u m0 rest o h
    have hlen : (smsProcess u (preCheck db u (m0 :: rest)) o 0 (m0 :: rest)
        ⟨db, 0, 0, []⟩).errors.length = 0 := by
      simpa only [smsBulk, List.isEmpty_cons, Bool.false_eq_true, if_false] using h
    have hcomp := smsProcess_no_error_items u (preCheck db u (m0 :: rest)) o (m0 :: rest) 0
      ⟨db, 0, 0, []⟩ hlen
    have hkey : ∀ m ∈ (m0 :: rest),
        smsKey m ∈ preCheck (smsProcess u (preCheck db u (m0 :: rest)) o 0 (m0 :: rest)
          ⟨db, 0, 0, []⟩).db u (m0 :: rest) := by
      intro m hm
      rcases (hcomp m hm).2 with hk | hrow
      · rcases (mem_preCheck db u (m0 :: rest) (smsKey m)).mp hk with ⟨mp, hmp, hg, hce, hkeq⟩
        refine (mem_preCheck _ u (m0 :: rest) (smsKey m)).mpr ⟨mp, hmp, hg, ?_, hkeq⟩
        rcases smsProcess_db_mono u (preCheck db u (m0 :: rest)) o (m0 :: rest) 0
          ⟨db, 0, 0, []⟩ with ⟨ext, hext⟩
        rw [hext]
        exact contentExists_mono db ext u mp hce
      · have ht := (hcomp m hm).1
        refine (mem_preCheck _ u (m0 :: rest) (smsKey m)).mpr ⟨m, hm, ?_, ?_, rfl⟩
        · simp [preCheckGuard, ht.1, ht.2.1, ht.2.2.1]
        · simp only [contentExists, List.any_eq_true]
          refine ⟨rowOf u m, hrow, ?_⟩
          simp [rowOf]
    have hskip := smsProcess_all_skip u
      (preCheck (smsProcess u (preCheck db u (m0 :: rest)) o 0 (m0 :: rest) ⟨db, 0, 0, []⟩).db
        u (m0 :: rest)) o (m0 :: rest) 0
      ⟨(smsProcess u (preCheck db u (m0 :: rest)) o 0 (m0 :: rest) ⟨db, 0, 0, []⟩).db, 0, 0, []⟩
      (fun m hm => ⟨(hcomp m hm).1, hkey m hm⟩)
    simp only [smsBulk, List.isEmpty_cons, Bool.false_eq_true, if_false]
    rw [hskip]
    simp
  · intro db u items o hu
    simp only [authBulk]
    exact authProcess_unique u o items 0 ⟨db, 0, 0, []⟩ hu
  · intro db u msgs o hu
    cases msgs with
    | nil => exact hu
    | cons m rest =>
      simp only [smsBulk, List.isEmpty_cons, Bool.false_eq_true, if_false]
      exact smsProcess_unique u (preCheck db u (m :: rest)) o (m :: rest) 0 ⟨db, 0, 0, []⟩ hu

/-- Counterexample to C1 as stated: resubmitting the identical one-item
batch to the content-keyed endpoint yields zero inserts and no duplicate
row, but the second report does not mark the item as duplicate or updated —
every counter except the total is 0 and the report has no duplicate field —
so the claim that the second submission reports every item as duplicate
(or updated) fails on this endpoint. -/
theorem claim1_cex :
    (smsBulk [] 1 [⟨"555", "hi", 5, 1, none, none⟩] noThrow).1
      = [⟨1, "555", "hi", 5, 1, none, none, none⟩] ∧
    (smsBulk [⟨1, "555", "hi", 5, 1, none, none, none⟩] 1 [⟨"555", "hi", 5, 1, none, none⟩]
        noThrow).2.totalMessages = 1 ∧
    (smsBulk [⟨1, "555", "hi", 5, 1, none, none, none⟩] 1 [⟨"555", "hi", 5, 1, none, none⟩]
        noThrow).2.insertedMessages = 0 ∧
    (smsBulk [⟨1, "555", "hi", 5, 1, none, none, none⟩] 1 [⟨"555", "hi", 5, 1, none, none⟩]
        noThrow).2.updatedMessages = 0 ∧
    (smsBulk [⟨1, "555", "hi", 5, 1, none, none, none⟩] 1 [⟨"555", "hi", 5, 1, none, none⟩]
        noThrow).2.erroredMessages = 0 := by
  decide

/-- Witness for C1 at concrete inputs: a resubmitted id-keyed batch comes
back all-duplicate with no new rows, a resubmitted content-keyed batch
comes back with all counters zero, and both stores satisfy their
uniqueness invariants afterwards. -/
theorem claim1_witness :
    (authBulk (authBulk [] 3 [⟨"k1", "a", "b", "d", none⟩] noThrowS).1 3
        [⟨"k1", "a", "b", "d", none⟩] noThrowS
      = ((authBulk [] 3 [⟨"k1", "a", "b", "d", none⟩] noThrowS).1,
         ⟨200, true, "Bulk SMS save completed", 1, 0, 1, 0, []⟩)) ∧
    (smsBulk (smsBulk [] 1 [⟨"555", "hi", 5, 1, none, none⟩] noThrow).1 1
        [⟨"555", "hi", 5, 1, none, none⟩] noThrow
      = ((smsBulk [] 1 [⟨"555", "hi", 5, 1, none, none⟩] noThrow).1,
         ⟨200, true, "All SMS messages processed successfully", 1, 0, 0, 0, 0, []⟩)) ∧
    authUnique (authBulk [] 3 [⟨"k1", "a", "b", "d", none⟩] noThrowS).1 ∧
    smsUnique (smsBulk [] 1 [⟨"555", "hi", 5, 1, none, none⟩] noThrow).1 := by
  exact ⟨claim1_bulk_idempotence.1 [] 3 [⟨"k1", "a", "b", "d", none⟩],
    claim1_bulk_idempotence.2.1 [] 1 ⟨"555", "hi", 5, 1, none, none⟩ [] noThrow (by decide),
    claim1_bulk_idempotence.2.2.1 [] 3 [⟨"k1", "a", "b", "d", none⟩] noThrowS List.Pairwise.nil,
    claim1_bulk_idempotence.2.2.2 [] 1 [⟨"555", "hi", 5, 1, none, none⟩] noThrow
      List.Pairwise.nil⟩

/-- Witness for C2 at concrete inputs: the content-keyed status follows the
200/207/400 classification and the id-keyed bulk endpoint answers 200. -/
theorem claim2_witness :
    ((smsBulk [] 1 [⟨"9", "z", 2, 1, none, none⟩] noThrow).2.statusCode
        = if (smsBulk [] 1 [⟨"9", "z", 2, 1, none, none⟩] noThrow).2.erroredMessages = 0 then 200
          else if 0 < (smsBulk [] 1 [⟨"9", "z", 2, 1, none, none⟩] noThrow).2.processedMessages
            then 207 else 400) ∧
    (authBulk [] 2 [] noThrowS).2.statusCode = 200 := by
  exact ⟨(claim2_batch_outcome_classification.1 [] 1 ⟨"9", "z", 2, 1, none, none⟩ [] noThrow).1,
    (claim2_batch_outcome_classification.2 [] 2 [] noThrowS).1⟩
